import Mathlib

/-!
Verification of the UFC fight predictor core (UFCPredictorv2.py):
name resolution, stat extraction, and prediction scoring.

The Python source is shallowly embedded here.  Python strings are
modelled as Lean strings, usually manipulated through their character
lists; Python ints as Int; Python floats as rationals (exact real
arithmetic in place of IEEE doubles, with the documented caveat that
round uses round-half-up rather than round-half-to-even); fallible
Python code (exception paths) as Option-valued functions.  The HTTP
transport and the HTML parser are external collaborators: the roster
page is modelled as an already-extracted list of candidate rows per
letter bucket, and a profile page as its record-span text plus the list
of stat-line texts.
-/

/-! ## Python string primitives -/

/-- Characters removed by Python str.strip with no argument. -/
def isPySpace (c : Char) : Bool :=
  c == ' ' || c == '\t' || c == '\n' || c == '\r' || c == '\x0b' || c == '\x0c'

/-- Python str.strip(): drop whitespace from both ends. -/
def pyStrip (l : List Char) : List Char :=
  ((l.dropWhile isPySpace).reverse.dropWhile isPySpace).reverse

/-- Python str.lower(), on the ASCII range used by the roster data. -/
def pyLower (l : List Char) : List Char :=
  l.map Char.toLower

/-- Python str.split(sep) for a one-character separator: keeps empty
segments, so the result is always non-empty and its segments never
contain the separator. -/
def pySplit (l : List Char) (sep : Char) : List (List Char) :=
  match l with
  | [] => [[]]
  | x :: xs =>
    if x = sep then [] :: pySplit xs sep
    else (x :: (pySplit xs sep).headD []) :: (pySplit xs sep).tail

/-- Worker for removeAll: scans left to right; on a match of the
pattern (head p, tail ps) it emits nothing and skips the remaining
ps.length matched characters via the counter, exactly the
non-overlapping left-to-right semantics of Python str.replace. -/
def removeAllGo (p : Char) (ps : List Char) : Nat → List Char → List Char
  | _, [] => []
  | skip + 1, _ :: xs => removeAllGo p ps skip xs
  | 0, x :: xs =>
    if p = x ∧ List.isPrefixOf ps xs then removeAllGo p ps ps.length xs
    else x :: removeAllGo p ps 0 xs

/-- Python str.replace(pat, empty string): remove every occurrence of
pat, scanning left to right without overlap. -/
def removeAll (pat : List Char) (l : List Char) : List Char :=
  match pat with
  | [] => l
  | p :: ps => removeAllGo p ps 0 l

/-- Numeric value of a digit string (used only behind an all-digit guard). -/
def digitsVal (l : List Char) : Nat :=
  l.foldl (fun a c => 10 * a + (c.toNat - 48)) 0

/-- Parse a non-empty all-digit string, else fail. -/
def digitsToNat? (l : List Char) : Option Nat :=
  if l ≠ [] ∧ l.all Char.isDigit then some (digitsVal l) else none

/-- Python int(str): strip whitespace, optional sign, then a non-empty
run of decimal digits; anything else raises ValueError (none here).
Digit-group underscores and non-ASCII digits are outside the modelled
input language. -/
def parsePyInt (l : List Char) : Option Int :=
  match pyStrip l with
  | [] => none
  | c :: rest =>
    if c = '-' then (digitsToNat? rest).map (fun n => -((n : Nat) : Int))
    else if c = '+' then (digitsToNat? rest).map (fun n => ((n : Nat) : Int))
    else (digitsToNat? (c :: rest)).map (fun n => ((n : Nat) : Int))

/-- Python float(str) on plain decimal literals: strip, optional sign,
digits with an optional decimal point (at least one digit overall);
exponent, infinity and nan forms are outside the modelled input
language, and fail here as they do not occur in the scraped fields. -/
def parsePyFloat (l : List Char) : Option ℚ :=
  match pyStrip l with
  | [] => none
  | t =>
    let sb : ℚ × List Char :=
      match t with
      | '-' :: r => (-1, r)
      | '+' :: r => (1, r)
      | r => (1, r)
    match pySplit sb.2 '.' with
    | [ip] => (digitsToNat? ip).map (fun n => sb.1 * (n : ℚ))
    | [ip, fp] =>
      if (ip ≠ [] ∨ fp ≠ []) ∧ ip.all Char.isDigit ∧ fp.all Char.isDigit then
        some (sb.1 * ((digitsVal ip : ℚ) + (digitsVal fp : ℚ) / (10 : ℚ) ^ fp.length))
      else none
    | _ => none

/-! ## Name resolution (get_fighter_profile_url) -/

/-- One row of the fighter-list table: the text of the first-name and
last-name links and their shared profile href.  Rows lacking two
columns or either link are skipped by the source loop, hence absent
from this list. -/
structure Candidate where
  firstName : String
  lastName : String
  href : String
deriving DecidableEq

/-- Observable outcome of get_fighter_profile_url: invalidName is the
IndexError branch (prints an invalid-name error, returns None),
unresolved is the exhausted scan (prints a could-not-find warning,
returns None), found carries the returned href. -/
inductive ResolveResult where
  | invalidName
  | unresolved
  | found (href : String)
deriving DecidableEq

/-- The lowered, stripped "first last" string built for a row. -/
def fullNameKey (c : Candidate) : List Char :=
  pyLower (pyStrip c.firstName.toList) ++ (' ' :: pyLower (pyStrip c.lastName.toList))

/-- The row loop: first exact match of the constructed full name
against the search key wins; an exhausted scan is unresolved. -/
def scanRows (rows : List Candidate) (key : List Char) : ResolveResult :=
  match rows with
  | [] => ResolveResult.unresolved
  | r :: rs =>
    if fullNameKey r = key then ResolveResult.found r.href else scanRows rs key

/-- get_fighter_profile_url: the search key is the stripped, lowered
input; the letter bucket is the lowered first character of the last
space-separated segment of the raw input (IndexError when that segment
is empty).  The roster argument stands for the fetched and parsed
fighter-list page of each letter. -/
def get_fighter_profile_url (roster : Char → List Candidate)
    (fighter_name : String) : ResolveResult :=
  match (pySplit fighter_name.toList ' ').getLastD [] with
  | [] => ResolveResult.invalidName
  | c :: _ => scanRows (roster (Char.toLower c)) (pyLower (pyStrip fighter_name.toList))

/-! ## Stat extraction (get_stats_from_profile) -/

/-- The stats dictionary returned by get_stats_from_profile. -/
structure FighterStats where
  name : String
  wins : Int
  losses : Int
  draws : Int
  slpm : ℚ
  strDef : Int
deriving DecidableEq

/-- The all-zero default record. -/
def zeroStats (name : String) : FighterStats :=
  ⟨name, 0, 0, 0, 0, 0⟩

/-- A fetched profile page, as seen by the extraction code: the text of
the record span when the span is present, and the stripped text of each
stat list item. -/
structure ProfilePage where
  record : Option String
  statLines : List String

/-- Lines 109-116 of the source: wins and losses are int of the first
two dash segments, draws is int of the first space token of the third
segment; a missing segment (IndexError) or a failed int (ValueError)
fails the whole parse. -/
def parseRecordParts (parts : List (List Char)) : Option (Int × Int × Int) :=
  match parts with
  | p0 :: p1 :: p2 :: _ =>
    match parsePyInt p0, parsePyInt p1, parsePyInt ((pySplit p2 ' ').headD []) with
    | some w, some l, some d => some (w, l, d)
    | _, _, _ => none
  | _ => none

/-- One iteration of the stat-line loop: an SLpM line keeps the state on
the placeholder and otherwise floats its value; otherwise a Str. Def
line keeps the state on the placeholder and otherwise ints its
percent-stripped value; any other line is ignored.  A failed numeric
parse is the ValueError that aborts the surrounding try block. -/
def scanStep (st : ℚ × Int) (item : String) : Option (ℚ × Int) :=
  if List.isPrefixOf "SLpM:".toList (pyStrip item.toList) then
    if pyStrip ((pySplit (pyStrip item.toList) ':').getLastD []) = "--".toList then some st
    else (parsePyFloat (pyStrip ((pySplit (pyStrip item.toList) ':').getLastD []))).map
      (fun x => (x, st.2))
  else if List.isPrefixOf "Str. Def:".toList (pyStrip item.toList) then
    if removeAll "%".toList (pyStrip ((pySplit (pyStrip item.toList) ':').getLastD []))
        = "--".toList then some st
    else (parsePyInt (removeAll "%".toList
        (pyStrip ((pySplit (pyStrip item.toList) ':').getLastD [])))).map
      (fun x => (st.1, x))
  else some st

/-- The stat-line loop from a given state. -/
def scanStatsFrom : (ℚ × Int) → List String → Option (ℚ × Int)
  | st, [] => some st
  | st, t :: rest =>
    match scanStep st t with
    | none => none
    | some st2 => scanStatsFrom st2 rest

/-- The stat-line loop from the zero baselines (slpm 0.0, str_def 0). -/
def scanStats (lines : List String) : Option (ℚ × Int) :=
  scanStatsFrom (0, 0) lines

/-- The body of the try block of get_stats_from_profile: a missing
record span (AttributeError), a record parse failure, or a stat-line
parse failure each abort the whole block. -/
def extractAll (p : ProfilePage) : Option (Int × Int × Int × ℚ × Int) :=
  match p.record with
  | none => none
  | some span =>
    match parseRecordParts
        (pySplit (removeAll "Record: ".toList (pyStrip span.toList)) '-') with
    | none => none
    | some (w, l, d) =>
      match scanStats p.statLines with
      | none => none
      | some (s, v) => some (w, l, d, s, v)

/-- get_stats_from_profile: a missing page (url None, or a fetch error)
and any exception inside the try block both yield the all-zero default
record carrying the caller-supplied name. -/
def get_stats_from_profile (page : Option ProfilePage) (fighter_name : String) :
    FighterStats :=
  match page with
  | none => zeroStats fighter_name
  | some p =>
    match extractAll p with
    | none => zeroStats fighter_name
    | some (w, l, d, s, v) => ⟨fighter_name, w, l, d, s, v⟩

/-- A stats record that get_stats_from_profile can actually produce. -/
def ExtractedStats (s : FighterStats) : Prop :=
  ∃ page name, get_stats_from_profile page name = s

/-! ## Prediction scoring (main, lines 196-236) -/

def totalFights (s : FighterStats) : Int :=
  s.wins + s.losses + s.draws

/-- Win_Rate: np.where(total_fights greater than 0, wins over total times 100, 0). -/
def winRate (s : FighterStats) : ℚ :=
  if 0 < totalFights s then ((s.wins : ℚ) / ((totalFights s : Int) : ℚ)) * 100 else 0

/-- Effective strikes of a against b: slpm of a discounted by the
defense of the opponent b. -/
def effStrikes (a b : FighterStats) : ℚ :=
  a.slpm * (1 - ((b.strDef : ℚ) / 100))

/-- Strike ratio of fighter 1: neutral 0.5 when the summed effective
strikes are zero, else the share of fighter 1. -/
def strikeRatio1 (a b : FighterStats) : ℚ :=
  if effStrikes a b + effStrikes b a = 0 then 0.5
  else effStrikes a b / (effStrikes a b + effStrikes b a)

/-- Strike ratio of fighter 2. -/
def strikeRatio2 (a b : FighterStats) : ℚ :=
  if effStrikes a b + effStrikes b a = 0 then 0.5
  else effStrikes b a / (effStrikes a b + effStrikes b a)

/-- f1_prediction_score: win rate weighted 0.6 plus strike ratio scaled
to 100 weighted 0.4. -/
def predScore1 (a b : FighterStats) : ℚ :=
  winRate a * 0.6 + strikeRatio1 a b * 100 * 0.4

/-- f2_prediction_score. -/
def predScore2 (a b : FighterStats) : ℚ :=
  winRate b * 0.6 + strikeRatio2 a b * 100 * 0.4

/-- total_score. -/
def totalScore (a b : FighterStats) : ℚ :=
  predScore1 a b + predScore2 a b

/-- Python round(x, 2), modelled as round to two decimals (half up;
the half-to-even difference of the float builtin is immaterial to the
properties proved here). -/
def round2 (x : ℚ) : ℚ :=
  ((round (x * 100) : Int) : ℚ) / 100

/-- The winner string of the dead-tie branch. -/
def tieWinnerMessage : String := "It's a perfect tie!"

/-- The likelihood pair and winner string reported by main. -/
structure PredictionResult where
  likelihoodA : ℚ
  likelihoodB : ℚ
  winner : String
deriving DecidableEq

/-- Lines 228-236: on a zero total score both likelihoods are pinned at
50.0 with the tie message; otherwise each likelihood is the rounded
percentage share and fighter 1 wins exactly when its likelihood is
strictly greater, fighter 2 otherwise. -/
def score (a b : FighterStats) : PredictionResult :=
  if totalScore a b = 0 then ⟨50, 50, tieWinnerMessage⟩
  else
    ⟨round2 (predScore1 a b / totalScore a b * 100),
     round2 (predScore2 a b / totalScore a b * 100),
     if round2 (predScore2 a b / totalScore a b * 100)
        < round2 (predScore1 a b / totalScore a b * 100)
     then a.name else b.name⟩

/-! ## Helper lemmas -/

theorem mem_of_mem_dropWhile {p : Char → Bool} {x : Char} {l : List Char}
    (h : x ∈ List.dropWhile p l) : x ∈ l := by
  induction l with
  | nil => simp [List.dropWhile] at h
  | cons a t ih =>
    rw [List.dropWhile_cons] at h
    split at h
    · exact List.mem_cons_of_mem _ (ih h)
    · exact h

theorem mem_of_mem_pyStrip {x : Char} {l : List Char} (h : x ∈ pyStrip l) : x ∈ l := by
  unfold pyStrip at h
  rw [List.mem_reverse] at h
  have h2 := mem_of_mem_dropWhile h
  rw [List.mem_reverse] at h2
  exact mem_of_mem_dropWhile h2

theorem parsePyInt_nonneg {l : List Char} {n : Int}
    (hm : '-' ∉ l) (h : parsePyInt l = some n) : 0 ≤ n := by
  unfold parsePyInt at h
  split at h
  · simp at h
  · rename_i c rest hs
    have hc : c ∈ l := mem_of_mem_pyStrip (by rw [hs]; exact List.mem_cons_self c rest)
    split_ifs at h with h1 h2
    · exact absurd (h1 ▸ hc) hm
    · obtain ⟨m, -, rfl⟩ := Option.map_eq_some'.mp h
      exact Int.natCast_nonneg m
    · obtain ⟨m, -, rfl⟩ := Option.map_eq_some'.mp h
      exact Int.natCast_nonneg m

theorem pySplit_ne_nil (l : List Char) (sep : Char) : pySplit l sep ≠ [] := by
  cases l with
  | nil => simp [pySplit]
  | cons x xs =>
    rw [pySplit]
    split <;> simp

theorem headD_mem {α : Type} {l : List α} (h : l ≠ []) (d : α) : l.headD d ∈ l := by
  cases l with
  | nil => exact absurd rfl h
  | cons a t => simp

theorem not_mem_of_mem_pySplit {sep : Char} :
    ∀ {l : List Char} {p : List Char}, p ∈ pySplit l sep → sep ∉ p := by
  intro l
  induction l with
  | nil =>
    intro p hp
    simp [pySplit] at hp
    simp [hp]
  | cons x xs ih =>
    intro p hp
    rw [pySplit] at hp
    by_cases hx : x = sep
    · rw [if_pos hx] at hp
      rcases List.mem_cons.mp hp with h | h
      · simp [h]
      · exact ih h
    · rw [if_neg hx] at hp
      rcases List.mem_cons.mp hp with h | h
      · subst h
        intro hmem
        rcases List.mem_cons.mp hmem with h2 | h2
        · exact hx h2.symm
        · have hhd : (pySplit xs sep).headD [] ∈ pySplit xs sep :=
            headD_mem (pySplit_ne_nil xs sep) []
          exact ih hhd h2
      · have hp2 : p ∈ pySplit xs sep := by
          cases hq : pySplit xs sep with
          | nil => exact absurd hq (pySplit_ne_nil xs sep)
          | cons a t =>
            rw [hq] at h
            exact List.mem_cons_of_mem _ (by simpa using h)
        exact ih hp2

theorem mem_orig_of_mem_pySplit {sep x : Char} :
    ∀ {l : List Char} {p : List Char}, p ∈ pySplit l sep → x ∈ p → x ∈ l := by
  intro l
  induction l with
  | nil =>
    intro p hp hx
    simp [pySplit] at hp
    subst hp
    simp at hx
  | cons a xs ih =>
    intro p hp hx
    rw [pySplit] at hp
    by_cases ha : a = sep
    · rw [if_pos ha] at hp
      rcases List.mem_cons.mp hp with h | h
      · subst h; simp at hx
      · exact List.mem_cons_of_mem _ (ih h hx)
    · rw [if_neg ha] at hp
      rcases List.mem_cons.mp hp with h | h
      · subst h
        rcases List.mem_cons.mp hx with h2 | h2
        · subst h2; exact List.mem_cons_self _ _
        · have hhd : (pySplit xs sep).headD [] ∈ pySplit xs sep :=
            headD_mem (pySplit_ne_nil xs sep) []
          exact List.mem_cons_of_mem _ (ih hhd h2)
      · have hp2 : p ∈ pySplit xs sep := by
          cases hq : pySplit xs sep with
          | nil => exact absurd hq (pySplit_ne_nil xs sep)
          | cons b t =>
            rw [hq] at h
            exact List.mem_cons_of_mem _ (by simpa using h)
        exact List.mem_cons_of_mem _ (ih hp2 hx)

theorem two_le_length_pySplit {sep : Char} :
    ∀ {l : List Char}, sep ∈ l → 2 ≤ (pySplit l sep).length := by
  intro l
  induction l with
  | nil => intro h; simp at h
  | cons x xs ih =>
    intro h
    rw [pySplit]
    by_cases hx : x = sep
    · rw [if_pos hx]
      have := List.length_pos.mpr (pySplit_ne_nil xs sep)
      simp only [List.length_cons]
      omega
    · rw [if_neg hx]
      have hmem : sep ∈ xs := by
        rcases List.mem_cons.mp h with h2 | h2
        · exact absurd h2.symm hx
        · exact h2
      have h2 := ih hmem
      simp only [List.length_cons, List.length_tail]
      omega

theorem getLastD_irrel {α : Type} {l : List α} (h : l ≠ []) (d1 d2 : α) :
    l.getLastD d1 = l.getLastD d2 := by
  cases l with
  | nil => exact absurd rfl h
  | cons a t => rw [List.getLastD_cons, List.getLastD_cons]

theorem pySplit_getLastD_append_sep {sep : Char} (l : List Char) :
    (pySplit (l ++ [sep]) sep).getLastD [] = [] := by
  induction l with
  | nil => simp [pySplit]
  | cons x xs ih =>
    rw [List.cons_append, pySplit]
    by_cases hx : x = sep
    · rw [if_pos hx, List.getLastD_cons]
      exact ih
    · rw [if_neg hx, List.getLastD_cons]
      have hmem : sep ∈ xs ++ [sep] := by simp
      have hlen := two_le_length_pySplit hmem
      cases hq : pySplit (xs ++ [sep]) sep with
      | nil => exact absurd hq (pySplit_ne_nil _ _)
      | cons a t =>
        rw [hq] at ih hlen
        simp only [List.length_cons] at hlen
        have ht : t ≠ [] := by
          intro hnil
          rw [hnil] at hlen
          simp at hlen
        simp only [List.tail_cons, List.headD_cons]
        rw [List.getLastD_cons] at ih
        rw [getLastD_irrel ht _ a]
        exact ih

theorem parseRecordParts_nonneg {r : List Char} {w l d : Int}
    (h : parseRecordParts (pySplit r '-') = some (w, l, d)) :
    0 ≤ w ∧ 0 ≤ l ∧ 0 ≤ d := by
  unfold parseRecordParts at h
  split at h
  · rename_i p0 p1 p2 tail heq
    split at h
    · rename_i w2 l2 d2 hw hl hd
      injection h with h2
      simp only [Prod.mk.injEq] at h2
      obtain ⟨rfl, rfl, rfl⟩ := h2
      have hp0 : p0 ∈ pySplit r '-' := by rw [heq]; exact List.mem_cons_self _ _
      have hp1 : p1 ∈ pySplit r '-' := by
        rw [heq]; exact List.mem_cons_of_mem _ (List.mem_cons_self _ _)
      have hp2 : p2 ∈ pySplit r '-' := by
        rw [heq]
        exact List.mem_cons_of_mem _ (List.mem_cons_of_mem _ (List.mem_cons_self _ _))
      refine ⟨parsePyInt_nonneg (not_mem_of_mem_pySplit hp0) hw,
        parsePyInt_nonneg (not_mem_of_mem_pySplit hp1) hl,
        parsePyInt_nonneg ?_ hd⟩
      intro hmem
      exact not_mem_of_mem_pySplit hp2
        (mem_orig_of_mem_pySplit (headD_mem (pySplit_ne_nil p2 ' ') []) hmem)
    · simp at h
  · simp at h

theorem extractAll_nonneg {p : ProfilePage} {w l d : Int} {s : ℚ} {v : Int}
    (h : extractAll p = some (w, l, d, s, v)) : 0 ≤ w ∧ 0 ≤ l ∧ 0 ≤ d := by
  unfold extractAll at h
  split at h
  · exact absurd h (by simp)
  · rename_i span hspan
    split at h
    · exact absurd h (by simp)
    · rename_i w2 l2 d2 hrec
      split at h
      · exact absurd h (by simp)
      · rename_i s2 v2 hscan
        simp only [Option.some.injEq, Prod.mk.injEq] at h
        obtain ⟨rfl, rfl, rfl, -, -⟩ := h
        exact parseRecordParts_nonneg hrec

theorem get_stats_nonneg (page : Option ProfilePage) (name : String) :
    0 ≤ (get_stats_from_profile page name).wins ∧
    0 ≤ (get_stats_from_profile page name).losses ∧
    0 ≤ (get_stats_from_profile page name).draws := by
  cases page with
  | none => simp [get_stats_from_profile, zeroStats]
  | some p =>
    rw [get_stats_from_profile]
    cases hx : extractAll p with
    | none => simp [zeroStats]
    | some q =>
      obtain ⟨w, l, d, s, v⟩ := q
      have h2 := extractAll_nonneg hx
      simpa using h2

theorem extracted_nonneg {a : FighterStats} (h : ExtractedStats a) :
    0 ≤ a.wins := by
  obtain ⟨page, name, rfl⟩ := h
  exact (get_stats_nonneg page name).1

theorem winRate_nonneg {s : FighterStats} (h : 0 ≤ s.wins) : 0 ≤ winRate s := by
  unfold winRate
  split_ifs with ht
  · have h1 : (0 : ℚ) ≤ (s.wins : ℚ) := by exact_mod_cast h
    have h2 : (0 : ℚ) ≤ ((totalFights s : Int) : ℚ) := by
      exact_mod_cast le_of_lt ht
    exact mul_nonneg (div_nonneg h1 h2) (by norm_num)
  · exact le_refl 0

theorem strikeRatio_sum (a b : FighterStats) :
    strikeRatio1 a b + strikeRatio2 a b = 1 := by
  unfold strikeRatio1 strikeRatio2
  split_ifs with h
  · norm_num
  · rw [div_add_div_same, div_self h]

theorem totalScore_eq (a b : FighterStats) :
    totalScore a b = (winRate a + winRate b) * 0.6 + 40 := by
  have hs := strikeRatio_sum a b
  unfold totalScore predScore1 predScore2
  have : strikeRatio2 a b = 1 - strikeRatio1 a b := by linarith
  rw [this]
  ring

theorem totalScore_ne_zero_of_extracted {a b : FighterStats}
    (ha : ExtractedStats a) (hb : ExtractedStats b) : totalScore a b ≠ 0 := by
  have h1 := winRate_nonneg (extracted_nonneg ha)
  have h2 := winRate_nonneg (extracted_nonneg hb)
  rw [totalScore_eq]
  intro h
  norm_num at h
  linarith

theorem scanRows_found {key : List Char} {cand : Candidate} :
    ∀ (pre : List Candidate) (post : List Candidate),
      (∀ x ∈ pre, fullNameKey x ≠ key) → fullNameKey cand = key →
      scanRows (pre ++ cand :: post) key = ResolveResult.found cand.href := by
  intro pre
  induction pre with
  | nil =>
    intro post _ hcand
    rw [List.nil_append, scanRows, if_pos hcand]
  | cons r rs ih =>
    intro post hpre hcand
    rw [List.cons_append, scanRows,
      if_neg (hpre r (List.mem_cons_self r rs))]
    exact ih post (fun x hx => hpre x (List.mem_cons_of_mem r hx)) hcand

theorem scanRows_unresolved {key : List Char} :
    ∀ {rows : List Candidate}, (∀ x ∈ rows, fullNameKey x ≠ key) →
      scanRows rows key = ResolveResult.unresolved := by
  intro rows
  induction rows with
  | nil => intro _; rfl
  | cons r rs ih =>
    intro h
    rw [scanRows, if_neg (h r (List.mem_cons_self r rs))]
    exact ih (fun x hx => h x (List.mem_cons_of_mem r hx))

theorem get_stats_some_eq (p : ProfilePage) (name : String) :
    get_stats_from_profile (some p) name
      = (match extractAll p with
         | none => zeroStats name
         | some (w, l, d, s, v) => ⟨name, w, l, d, s, v⟩) := rfl

theorem get_stats_of_extractAll_none {p : ProfilePage} {name : String}
    (h : extractAll p = none) :
    get_stats_from_profile (some p) name = zeroStats name := by
  rw [get_stats_some_eq, h]

theorem extractAll_mk_eq (span : String) (lines : List String) :
    extractAll ⟨some span, lines⟩
      = (match parseRecordParts
            (pySplit (removeAll "Record: ".toList (pyStrip span.toList)) '-') with
         | none => none
         | some (w, l, d) =>
           match scanStats lines with
           | none => none
           | some (s, v) => some (w, l, d, s, v)) := rfl

theorem extractAll_record_fail {span : String} {lines : List String}
    (h : parseRecordParts (pySplit (removeAll "Record: ".toList (pyStrip span.toList)) '-')
      = none) : extractAll ⟨some span, lines⟩ = none := by
  rw [extractAll_mk_eq, h]

theorem extractAll_scan_fail {span : String} {lines : List String}
    (h : scanStats lines = none) : extractAll ⟨some span, lines⟩ = none := by
  rw [extractAll_mk_eq]
  cases hrec : parseRecordParts
      (pySplit (removeAll "Record: ".toList (pyStrip span.toList)) '-') with
  | none => rfl
  | some trip =>
    obtain ⟨w, l, d⟩ := trip
    rw [h]

/-! ## Claims -/

/-- C3 counterexample: the input consisting of a single tab has an empty
trimmed text, hence no surname token in the trimmed sense, yet
resolution does not fail with the invalid-name outcome: the raw last
space-segment is the tab itself, so a roster scan is reached and the
outcome is the unresolved sentinel. -/
theorem whitespace_name_scans_roster :
    pyStrip "\t".toList = []
    ∧ get_fighter_profile_url (fun _ => []) "\t" = ResolveResult.unresolved
    ∧ ResolveResult.unresolved ≠ ResolveResult.invalidName :=
  ⟨by decide, by decide, by decide⟩

/-- C3 amended: for every input whose RAW text has an empty last
space-separated segment (the input is empty or ends with a space
character), resolution fails immediately with the invalid-name outcome,
independently of the roster (so no roster scan is observable), and that
outcome is distinct from the unresolved sentinel. -/
theorem invalid_name_on_empty_raw_last_segment
    (roster : Char → List Candidate) (name : String)
    (h : (pySplit name.toList ' ').getLastD [] = []) :
    get_fighter_profile_url roster name = ResolveResult.invalidName
    ∧ ResolveResult.invalidName ≠ ResolveResult.unresolved := by
  constructor
  · unfold get_fighter_profile_url
    rw [h]
  · decide

/-- C3 witness: the concrete input with a trailing space hits the
invalid-name outcome even with an exactly matching roster row. -/
theorem invalid_name_on_empty_raw_last_segment_witness :
    (pySplit "john smith ".toList ' ').getLastD [] = []
    ∧ (get_fighter_profile_url (fun _ => [⟨"John", "Smith", "u1"⟩]) "john smith "
          = ResolveResult.invalidName
      ∧ ResolveResult.invalidName ≠ ResolveResult.unresolved) :=
  ⟨by decide,
   invalid_name_on_empty_raw_last_segment (fun _ => [⟨"John", "Smith", "u1"⟩])
     "john smith " (by decide)⟩

/-- C5 counterexample: the input with a trailing space normalizes to
exactly the single roster row's lowered full name, yet resolve does not
return that row's locator: it fails with the invalid-name outcome
before any scan. -/
theorem exact_match_lost_on_trailing_space :
    pyLower (pyStrip "john smith ".toList) = fullNameKey ⟨"John", "Smith", "u1"⟩
    ∧ get_fighter_profile_url (fun _ => [⟨"John", "Smith", "u1"⟩]) "john smith "
        = ResolveResult.invalidName
    ∧ ResolveResult.invalidName ≠ ResolveResult.found "u1" :=
  ⟨by decide, by decide, by decide⟩

/-- C5 amended: when the raw input has a non-empty last space-segment
(first character c), the scanned bucket is the roster at lowered c, and
within it the first candidate whose lowered stripped full name exactly
equals the stripped lowered input wins, the scan stopping there; with no
exact match the outcome is the unresolved sentinel, so matching is exact
equality only. -/
theorem resolver_first_exact_match
    (roster : Char → List Candidate) (name : String) (c : Char) (rest : List Char)
    (h : (pySplit name.toList ' ').getLastD [] = c :: rest) :
    (∀ (pre post : List Candidate) (cand : Candidate),
        roster (Char.toLower c) = pre ++ cand :: post →
        (∀ x ∈ pre, fullNameKey x ≠ pyLower (pyStrip name.toList)) →
        fullNameKey cand = pyLower (pyStrip name.toList) →
        get_fighter_profile_url roster name = ResolveResult.found cand.href)
    ∧ ((∀ x ∈ roster (Char.toLower c),
          fullNameKey x ≠ pyLower (pyStrip name.toList)) →
        get_fighter_profile_url roster name = ResolveResult.unresolved) := by
  have e : get_fighter_profile_url roster name
      = scanRows (roster (Char.toLower c)) (pyLower (pyStrip name.toList)) := by
    unfold get_fighter_profile_url
    rw [h]
  constructor
  · intro pre post cand hb hpre hcand
    rw [e, hb]
    exact scanRows_found pre post hpre hcand
  · intro hall
    rw [e]
    exact scanRows_unresolved hall

/-- C5 witness: with two identical matching rows after one
non-matching row, the first matching row's locator is returned. -/
theorem resolver_first_exact_match_witness :
    (pySplit "John Smith".toList ' ').getLastD [] = 'S' :: "mith".toList
    ∧ get_fighter_profile_url
        (fun _ => [⟨"A", "B", "u0"⟩, ⟨"John", "Smith", "u1"⟩, ⟨"John", "Smith", "u2"⟩])
        "John Smith" = ResolveResult.found "u1" :=
  ⟨by decide,
   (resolver_first_exact_match
      (fun _ => [⟨"A", "B", "u0"⟩, ⟨"John", "Smith", "u1"⟩, ⟨"John", "Smith", "u2"⟩])
      "John Smith" 'S' "mith".toList (by decide)).1
     [⟨"A", "B", "u0"⟩] [⟨"John", "Smith", "u2"⟩] ⟨"John", "Smith", "u1"⟩
     (by decide) (by decide) (by decide)⟩

/-- C10 counterexample: a trailing-space input with an exactly matching
roster row does return no locator without a scan, but the outcome is
the invalid-name error print, not the unresolved sentinel the claim
names. -/
theorem trailing_space_not_unresolved :
    pyLower (pyStrip "bob jones ".toList) = fullNameKey ⟨"Bob", "Jones", "u2"⟩
    ∧ get_fighter_profile_url (fun _ => [⟨"Bob", "Jones", "u2"⟩]) "bob jones "
        = ResolveResult.invalidName
    ∧ ResolveResult.invalidName ≠ ResolveResult.unresolved :=
  ⟨by decide, by decide, by decide⟩

/-- C10 amended: the letter bucket is chosen from the first character of
the last space-separated token of the raw, untrimmed input: an input
ending in a space has an empty last token and fails with the
invalid-name outcome regardless of the roster (no bucket is scanned),
even when the trimmed lower-cased name matches a candidate; and when
the last raw token starts with character c, the outcome depends on the
roster only through the bucket at lowered c. -/
theorem bucket_from_raw_last_token :
    (∀ (roster : Char → List Candidate) (name : String) (l : List Char),
        name.toList = l ++ [' '] →
        get_fighter_profile_url roster name = ResolveResult.invalidName)
    ∧ (∀ (r1 r2 : Char → List Candidate) (name : String) (c : Char) (rest : List Char),
        (pySplit name.toList ' ').getLastD [] = c :: rest →
        r1 (Char.toLower c) = r2 (Char.toLower c) →
        get_fighter_profile_url r1 name = get_fighter_profile_url r2 name) := by
  constructor
  · intro roster name l h
    have h2 : (pySplit name.toList ' ').getLastD [] = [] := by
      rw [h]
      exact pySplit_getLastD_append_sep l
    unfold get_fighter_profile_url
    rw [h2]
  · intro r1 r2 name c rest h hr
    unfold get_fighter_profile_url
    rw [h]
    exact congrArg (fun rows => scanRows rows (pyLower (pyStrip name.toList))) hr

/-- C10 witness: the trailing-space input fails with the invalid-name
outcome against a matching roster, and the resolution of a well-formed
input is unchanged when rosters agree on the one scanned bucket. -/
theorem bucket_from_raw_last_token_witness :
    "john smith ".toList = "john smith".toList ++ [' ']
    ∧ get_fighter_profile_url (fun _ => [⟨"John", "Smith", "u1"⟩]) "john smith "
        = ResolveResult.invalidName
    ∧ get_fighter_profile_url (fun _ => [⟨"Jon", "Jones", "u3"⟩]) "Jon Jones"
        = get_fighter_profile_url
            (fun c => if c = 'j' then [⟨"Jon", "Jones", "u3"⟩] else []) "Jon Jones" :=
  ⟨by decide,
   bucket_from_raw_last_token.1 (fun _ => [⟨"John", "Smith", "u1"⟩]) "john smith "
     "john smith".toList (by decide),
   bucket_from_raw_last_token.2 (fun _ => [⟨"Jon", "Jones", "u3"⟩])
     (fun c => if c = 'j' then [⟨"Jon", "Jones", "u3"⟩] else []) "Jon Jones"
     'J' "ones".toList (by decide) (by decide)⟩

/-- C8: extraction with no resolved profile page returns exactly the
all-zero record with the caller-supplied name unchanged, as a normal
return value. -/
theorem extract_none_zero_default (name : String) :
    get_stats_from_profile none name
      = ⟨name, 0, 0, 0, 0, 0⟩ :=
  rfl

/-- C7: the record summary 27-1-0 parses to wins 27, losses 1, draws 0;
the no-contest annotated 11-3-0 (1 NC) parses to 11, 3, 0 with the
annotation dropped by taking the first space token of the third
segment; and any record text whose parse fails makes the entire
extraction fall back to the full zero-default record, whatever the stat
lines hold. -/
theorem record_parsing_examples_and_fallback :
    get_stats_from_profile (some ⟨some "Record: 27-1-0", []⟩) "N"
      = ⟨"N", 27, 1, 0, 0, 0⟩
    ∧ get_stats_from_profile (some ⟨some "Record: 11-3-0 (1 NC)", []⟩) "N"
      = ⟨"N", 11, 3, 0, 0, 0⟩
    ∧ ∀ (name span : String) (lines : List String),
        parseRecordParts
          (pySplit (removeAll "Record: ".toList (pyStrip span.toList)) '-') = none →
        get_stats_from_profile (some ⟨some span, lines⟩) name = zeroStats name := by
  refine ⟨by decide, by decide, ?_⟩
  intro name span lines h
  exact get_stats_of_extractAll_none (extractAll_record_fail h)

/-- C7 witness: the malformed record text garbage hits the fallback,
wiping even a parseable stat line. -/
theorem record_parsing_examples_and_fallback_witness :
    parseRecordParts
      (pySplit (removeAll "Record: ".toList (pyStrip "Record: garbage".toList)) '-') = none
    ∧ get_stats_from_profile (some ⟨some "Record: garbage", ["SLpM: 2.5"]⟩) "N"
      = zeroStats "N" :=
  ⟨by decide,
   record_parsing_examples_and_fallback.2.2 "N" "Record: garbage" ["SLpM: 2.5"]
     (by decide)⟩

/-- C2 counterexample: with the record 5-2-1 and a parseable Str. Def
line of 61 followed by an SLpM line whose value fails to parse, the
whole extraction collapses to the zero default, so the SLpM parse
failure wipes both the already-parsed record fields and the parsed
Str. Def value; dropping the bad SLpM line retains them. -/
theorem statScan_failure_wipes_parsed_fields :
    get_stats_from_profile
        (some ⟨some "Record: 5-2-1", ["Str. Def: 61%", "SLpM: abc"]⟩) "X"
      = zeroStats "X"
    ∧ get_stats_from_profile (some ⟨some "Record: 5-2-1", ["Str. Def: 61%"]⟩) "X"
      = ⟨"X", 5, 2, 1, 0, 61⟩ :=
  ⟨by decide, by decide⟩

/-- C2 amended: the stat scan is tolerant of absent labels and of the
placeholder value: a line matching neither label, or a labelled line
carrying the placeholder, leaves the state unchanged, and a successful
labelled line updates only its own field; but a labelled line whose
numeric parse fails aborts the scan, and a failed scan makes the whole
extraction fall back to the zero default, record fields included. -/
theorem statScan_tolerance_and_fallback :
    (∀ (st : ℚ × Int) (t : String),
        List.isPrefixOf "SLpM:".toList (pyStrip t.toList) = false →
        List.isPrefixOf "Str. Def:".toList (pyStrip t.toList) = false →
        scanStep st t = some st)
    ∧ (∀ (st : ℚ × Int) (t : String),
        List.isPrefixOf "SLpM:".toList (pyStrip t.toList) = true →
        pyStrip ((pySplit (pyStrip t.toList) ':').getLastD []) = "--".toList →
        scanStep st t = some st)
    ∧ (∀ (st : ℚ × Int) (t : String),
        List.isPrefixOf "SLpM:".toList (pyStrip t.toList) = false →
        List.isPrefixOf "Str. Def:".toList (pyStrip t.toList) = true →
        removeAll "%".toList (pyStrip ((pySplit (pyStrip t.toList) ':').getLastD []))
          = "--".toList →
        scanStep st t = some st)
    ∧ (∀ (st res : ℚ × Int) (t : String),
        List.isPrefixOf "SLpM:".toList (pyStrip t.toList) = true →
        scanStep st t = some res → res.2 = st.2)
    ∧ (∀ (st res : ℚ × Int) (t : String),
        List.isPrefixOf "SLpM:".toList (pyStrip t.toList) = false →
        scanStep st t = some res → res.1 = st.1)
    ∧ (∀ (name span : String) (lines : List String),
        scanStats lines = none →
        get_stats_from_profile (some ⟨some span, lines⟩) name = zeroStats name) := by
  refine ⟨?_, ?_, ?_, ?_, ?_, ?_⟩
  · intro st t h1 h2
    unfold scanStep
    rw [h1, h2]
    simp
  · intro st t h1 h2
    unfold scanStep
    rw [h1, h2]
    simp
  · intro st t h1 h2 h3
    unfold scanStep
    rw [h1, h2, h3]
    simp
  · intro st res t h1 hstep
    unfold scanStep at hstep
    rw [h1] at hstep
    split at hstep
    · split at hstep
      · obtain rfl : st = res := by injection hstep
        rfl
      · obtain ⟨x, -, rfl⟩ := Option.map_eq_some'.mp hstep
        rfl
    · rename_i hcond
      exact absurd rfl hcond
  · intro st res t h1 hstep
    unfold scanStep at hstep
    rw [h1] at hstep
    split at hstep
    · rename_i hcond
      exact absurd hcond (by simp)
    · split at hstep
      · split at hstep
        · obtain rfl : st = res := by injection hstep
          rfl
        · obtain ⟨x, -, rfl⟩ := Option.map_eq_some'.mp hstep
          rfl
      · obtain rfl : st = res := by injection hstep
        rfl
  · intro name span lines h
    exact get_stats_of_extractAll_none (extractAll_scan_fail h)

/-- C2 amended witness: concrete instances of each tolerance clause and
of the full fallback on a scan failure. -/
theorem statScan_tolerance_and_fallback_witness :
    scanStep (1, 61) "Weight: 155 lbs." = some (1, 61)
    ∧ scanStep (1, 61) "SLpM: --" = some (1, 61)
    ∧ scanStep (1, 61) "Str. Def: --" = some (1, 61)
    ∧ ((1 : ℚ), (61 : Int)).2 = ((1 : ℚ), (61 : Int)).2
    ∧ ((1 : ℚ), (61 : Int)).1 = ((1 : ℚ), (0 : Int)).1
    ∧ get_stats_from_profile (some ⟨some "Record: 5-2-1", ["SLpM: abc"]⟩) "X"
      = zeroStats "X" :=
  ⟨statScan_tolerance_and_fallback.1 (1, 61) "Weight: 155 lbs." (by decide) (by decide),
   statScan_tolerance_and_fallback.2.1 (1, 61) "SLpM: --" (by decide) (by decide),
   statScan_tolerance_and_fallback.2.2.1 (1, 61) "Str. Def: --" (by decide) (by decide)
     (by decide),
   statScan_tolerance_and_fallback.2.2.2.1 (1, 61) (1, 61) "SLpM: --" (by decide)
     (by decide),
   statScan_tolerance_and_fallback.2.2.2.2.1 (1, 0) (1, 61) "Str. Def: 61%" (by decide)
     (by decide),
   statScan_tolerance_and_fallback.2.2.2.2.2 "X" "Record: 5-2-1" ["SLpM: abc"]
     (by decide)⟩

/-- C4 counterexample: a profile page carrying a strike-defense value of
150 percent produces a record whose strikeDefensePercent field is 150,
above the claimed bound of 100: the extraction applies no clamping. -/
theorem strikeDefense_exceeds_100 :
    (get_stats_from_profile (some ⟨some "Record: 5-2-0", ["Str. Def:150%"]⟩) "X").strDef
      = 150
    ∧ ¬ (get_stats_from_profile
          (some ⟨some "Record: 5-2-0", ["Str. Def:150%"]⟩) "X").strDef ≤ 100 :=
  ⟨by decide, by decide⟩

/-- C4 amended: every record produced by extraction has non-negative
wins, losses and draws (the dash-split segments cannot carry a minus
sign), and all fields are always populated by construction; but the
strikeDefensePercent field is whatever integer the page text provides,
with no upper bound of 100 enforced. -/
theorem extraction_counts_nonneg (page : Option ProfilePage) (name : String) :
    0 ≤ (get_stats_from_profile page name).wins
    ∧ 0 ≤ (get_stats_from_profile page name).losses
    ∧ 0 ≤ (get_stats_from_profile page name).draws :=
  get_stats_nonneg page name

/-- C1: whenever the total score is non-zero, the scorer names fighter 1
the winner exactly when its rounded likelihood is strictly greater than
that of fighter 2, names fighter 2 when its rounded likelihood is
strictly greater, and names fighter 2 when the rounded likelihoods are
exactly equal. -/
theorem scorer_winner_rule (a b : FighterStats) (h : totalScore a b ≠ 0) :
    ((score a b).likelihoodB < (score a b).likelihoodA → (score a b).winner = a.name)
    ∧ ((score a b).likelihoodA < (score a b).likelihoodB → (score a b).winner = b.name)
    ∧ ((score a b).likelihoodA = (score a b).likelihoodB → (score a b).winner = b.name) := by
  unfold score
  rw [if_neg h]
  refine ⟨fun h2 => ?_, fun h2 => ?_, fun h2 => ?_⟩
  · dsimp only at h2 ⊢
    rw [if_pos h2]
  · dsimp only at h2 ⊢
    rw [if_neg (lt_asymm h2)]
  · dsimp only at h2 ⊢
    rw [if_neg (by rw [h2]; exact lt_irrefl _)]

/-- C1 witness: two all-zero records have total score 40 and equal
rounded likelihoods, so the tie-break names fighter 2. -/
theorem scorer_winner_rule_witness :
    totalScore (zeroStats "A") (zeroStats "B") ≠ 0
    ∧ (((score (zeroStats "A") (zeroStats "B")).likelihoodB
          < (score (zeroStats "A") (zeroStats "B")).likelihoodA
        → (score (zeroStats "A") (zeroStats "B")).winner = (zeroStats "A").name)
      ∧ ((score (zeroStats "A") (zeroStats "B")).likelihoodA
          < (score (zeroStats "A") (zeroStats "B")).likelihoodB
        → (score (zeroStats "A") (zeroStats "B")).winner = (zeroStats "B").name)
      ∧ ((score (zeroStats "A") (zeroStats "B")).likelihoodA
          = (score (zeroStats "A") (zeroStats "B")).likelihoodB
        → (score (zeroStats "A") (zeroStats "B")).winner = (zeroStats "B").name)) :=
  ⟨by norm_num [totalScore_eq, winRate, totalFights, zeroStats],
   scorer_winner_rule (zeroStats "A") (zeroStats "B")
     (by norm_num [totalScore_eq, winRate, totalFights, zeroStats])⟩

/-- C6: the zero-total-score guard and its 50-50 tie branch exist, but
the branch is dead code: every pair of extraction-produced records has
strike ratios summing to one and non-negative win rates, so the total
score is at least 40 and never zero; in particular the all-zero pair
the spec assigns to this branch actually has total score 40 and is
decided by the tie-break to fighter 2, never the tie message. -/
theorem tie_branch_unreachable :
    (∀ a b : FighterStats, ExtractedStats a → ExtractedStats b → totalScore a b ≠ 0)
    ∧ totalScore (zeroStats "A") (zeroStats "B") = 40
    ∧ score (zeroStats "A") (zeroStats "B") = ⟨50, 50, (zeroStats "B").name⟩
    ∧ (zeroStats "B").name ≠ tieWinnerMessage := by
  refine ⟨fun a b ha hb => totalScore_ne_zero_of_extracted ha hb, ?_, ?_, by decide⟩
  · norm_num [totalScore_eq, winRate, totalFights, zeroStats]
  · have h40 : totalScore (zeroStats "A") (zeroStats "B") = 40 := by
      norm_num [totalScore_eq, winRate, totalFights, zeroStats]
    have hp : predScore1 (zeroStats "A") (zeroStats "B") = 20 := by
      norm_num [predScore1, winRate, strikeRatio1, effStrikes, totalFights, zeroStats]
    have hq : predScore2 (zeroStats "A") (zeroStats "B") = 20 := by
      norm_num [predScore2, winRate, strikeRatio2, effStrikes, totalFights, zeroStats]
    rw [score, h40, hp, hq]
    norm_num [round2, round_eq, zeroStats]

/-- C6 witness: the all-zero records are producible by extraction and
their total score is non-zero. -/
theorem tie_branch_unreachable_witness :
    ExtractedStats (zeroStats "A") ∧ ExtractedStats (zeroStats "B")
    ∧ totalScore (zeroStats "A") (zeroStats "B") ≠ 0 :=
  ⟨⟨none, "A", rfl⟩, ⟨none, "B", rfl⟩,
   tie_branch_unreachable.1 (zeroStats "A") (zeroStats "B")
     ⟨none, "A", rfl⟩ ⟨none, "B", rfl⟩⟩

/-- C9: scoring a record against an identical copy of itself always
yields both rounded likelihoods exactly 50, with the winner given by the
documented rule: the tie message when the total score is zero, the
second fighter (here the same record) otherwise. -/
theorem score_self_fifty_fifty (x : FighterStats) :
    (score x x).likelihoodA = 50 ∧ (score x x).likelihoodB = 50
    ∧ (score x x).winner
        = (if totalScore x x = 0 then tieWinnerMessage else x.name) := by
  have hr1 : strikeRatio1 x x = 1 / 2 := by
    unfold strikeRatio1
    split_ifs with h
    · norm_num
    · rw [div_eq_iff h]
      ring
  have hr2 : strikeRatio2 x x = 1 / 2 := by
    unfold strikeRatio2
    split_ifs with h
    · norm_num
    · rw [div_eq_iff h]
      ring
  have hp : predScore1 x x = predScore2 x x := by
    unfold predScore1 predScore2
    rw [hr1, hr2]
  have ht : totalScore x x = 2 * predScore1 x x := by
    unfold totalScore
    rw [← hp]
    ring
  by_cases h0 : totalScore x x = 0
  · rw [score, if_pos h0, if_pos h0]
    exact ⟨rfl, rfl, rfl⟩
  · have hp0 : predScore1 x x ≠ 0 := by
      intro hh
      exact h0 (by rw [ht, hh, mul_zero])
    have h2p : (2 : ℚ) * predScore1 x x ≠ 0 := mul_ne_zero two_ne_zero hp0
    have hL : predScore1 x x / totalScore x x * 100 = 50 := by
      rw [ht]
      field_simp
      ring
    have hL2 : predScore2 x x / totalScore x x * 100 = 50 := by
      rw [← hp, ht]
      field_simp
      ring
    have h50 : round2 50 = 50 := by norm_num [round2, round_eq]
    rw [score, if_neg h0, if_neg h0]
    dsimp only
    rw [hL, hL2, h50]
    exact ⟨rfl, rfl, if_neg (lt_irrefl 50)⟩
